import Mathlib

/-!
Verification of the startup-intelligence discovery and scoring pipeline.

The definitions below are a shallow embedding of the Python sources
src/analysis/ai_washing_detector.py, src/discovery/discovery_engine.py and
config/settings.py.  Network-bound helpers (page fetching, collector
scraping, GitHub API calls, job-board search) are modelled as explicit
function parameters returning Except String α: an Except.error result
stands for a raised exception, an Except.ok result for a normal return.
Python floats are modelled as rationals, Python ints as Int, and an absent
dict entry with a falsy default is modelled by the empty string / 0 / none,
matching Python truthiness tests on those fields.
-/

namespace StartupIntel

/-- Whether pat occurs at the very start of the character list s. -/
def matchesAt : List Char → List Char → Bool
  | [], _ => true
  | _ :: _, [] => false
  | p :: ps, c :: cs => p == c && matchesAt ps cs

/-- Split a character list at the first occurrence of pat: the characters
before the match and the characters after it.  none when pat does not
occur; the empty pattern matches at position 0. -/
def splitFirst (pat : List Char) : List Char → Option (List Char × List Char)
  | [] => if matchesAt pat [] then some ([], []) else none
  | c :: cs =>
      if matchesAt pat (c :: cs) then some ([], (c :: cs).drop pat.length)
      else
        match splitFirst pat cs with
        | some (pre, post) => some (c :: pre, post)
        | none => none

/-- Python substring membership test (pat in s). -/
def strContains (s pat : String) : Bool :=
  (splitFirst pat.data s.data).isSome

/-- Everything after the first occurrence of sep in s (Python
s.split(sep, 1)[1]); s itself when sep does not occur (the callers guard
on occurrence first). -/
def afterFirst (s sep : String) : String :=
  match splitFirst sep.data s.data with
  | some (_, post) => ⟨post⟩
  | none => s

/-- Everything before the first occurrence of sep in s (Python
s.split(sep, 1)[0]); s itself when sep does not occur. -/
def beforeFirst (s sep : String) : String :=
  match splitFirst sep.data s.data with
  | some (pre, _) => ⟨pre⟩
  | none => s

/-- Python str.lower (ASCII letters, the only ones appearing in the
configured keyword tables). -/
def strToLower (s : String) : String :=
  ⟨s.data.map Char.toLower⟩

/-- Python str.strip: remove leading and trailing whitespace. -/
def strTrim (s : String) : String :=
  ⟨((s.data.dropWhile Char.isWhitespace).reverse.dropWhile Char.isWhitespace).reverse⟩

/-- Python str.startswith. -/
def strStartsWith (s pat : String) : Bool :=
  matchesAt pat.data s.data

/-- Python s[n:]. -/
def strDrop (s : String) (n : Nat) : String :=
  ⟨s.data.drop n⟩

/-- Company record flowing through the pipeline: the dict shape used by the
collectors and scorers.  A missing website / name / description etc. is the
empty string, matching company.get(key, default) with falsy defaults. -/
structure CompanyRecord where
  name : String := ""
  website : String := ""
  description : String := ""
  location : String := ""
  funding_stage : String := ""
  employees_count : Int := 0
  keywords : List String := []
  deriving DecidableEq

/-- One job posting as consumed by _analyze_job_postings. -/
structure Job where
  title : String := ""
  description : String := ""
  deriving DecidableEq

/-- Python int() applied to a real number: truncation toward zero. -/
def pyInt (q : ℚ) : Int := if 0 ≤ q then ⌊q⌋ else ⌈q⌉

/-- Embeds calculate_ai_washing_score (ai_washing_detector.py lines 39-64)
as a function of the four sub-scores: score starts at 0, accumulates the
weighted sub-scores, is truncated by int() and clamped by
max(1, min(10, .)). -/
def calculate_ai_washing_score
    (blog_score jobs_score github_score marketing_score : ℚ) : Int :=
  let score : ℚ := 0
  let score := score + blog_score * (3/10)
  let score := score + jobs_score * (1/4)
  let score := score + github_score * (1/4)
  let score := score + marketing_score * (1/5)
  max 1 (min 10 (pyInt score))

/-- Embeds _analyze_engineering_blog (lines 66-102).  The network-bound
helpers are parameters: findBlog stands for _find_engineering_blog, fetch
for _get_page_content applied to one blog url (an Except.error stands for
an exception raised inside the per-post try block, which the source logs
and skips), and scorePost for _score_blog_post_content applied to the
fetched text.  An empty fetched string is falsy and is skipped just like a
failed fetch. -/
def analyze_engineering_blog
    (findBlog : String → Except String (List String))
    (fetch : String → Except String String)
    (scorePost : String → ℚ)
    (company : CompanyRecord) : ℚ :=
  if company.website = "" then 0
  else
    match findBlog company.website with
    | .error _ => 2
    | .ok blog_urls =>
        if blog_urls.isEmpty then 2
        else
          let post_scores := (blog_urls.take 3).filterMap (fun blog_url =>
            match fetch blog_url with
            | .error _ => none
            | .ok blog_content =>
                if blog_content = "" then none
                else some (scorePost blog_content))
          if 0 < post_scores.length then
            min 10 (post_scores.sum / (post_scores.length : ℚ))
          else 2

/-- Embeds AI_DETECTION_CONFIG job_title_weights (config/settings.py),
in dict insertion order. -/
def job_title_weights : List (String × ℚ) :=
  [("Machine Learning Engineer", 3), ("ML Engineer", 3), ("Data Scientist", 2),
   ("AI Engineer", 5/2), ("Research Scientist", 3), ("MLOps Engineer", 5/2),
   ("AI Product Manager", 3/2), ("Software Engineer", 1/2)]

/-- Weight contributed by one job title: the first pattern in the weight
table whose lower-cased form is a substring of the lower-cased title wins
(the loop breaks at the first match); no match contributes 0. -/
def ml_weight (job_title : String) : ℚ :=
  match job_title_weights.find? (fun pw => strContains (strToLower job_title) (strToLower pw.1)) with
  | some pw => pw.2
  | none => 0

/-- Embeds _analyze_job_postings (lines 188-232).  jobSearch stands for the
network-bound _search_job_postings; an Except.error is an exception caught
by the try block, which falls through to the default score 3. -/
def analyze_job_postings
    (jobSearch : String → Except String (List Job))
    (company : CompanyRecord) : ℚ :=
  if company.name = "" then 0
  else
    match jobSearch company.name with
    | .error _ => 3
    | .ok job_data =>
        if job_data.isEmpty then 3
        else
          let total_positions := job_data.length
          let ml_positions : ℚ := (job_data.map (fun j => ml_weight j.title)).sum
          if 0 < total_positions then
            let ml_ratio := ml_positions / (total_positions : ℚ)
            if ml_ratio ≥ 3/10 then 10
            else if ml_ratio ≥ 1/5 then 8
            else if ml_ratio ≥ 3/20 then 6
            else if ml_ratio ≥ 1/10 then 4
            else 2
          else 3

/-- Embeds _search_job_postings (lines 234-253).  Its body evaluates
company.get(..) but no variable named company is bound in that scope (the
parameter is company_name and the function defines only mock_jobs and
description), so every call raises NameError before reaching a return
statement.  The call is therefore modelled as always raising. -/
def search_job_postings (company_name : String) : Except String (List Job) :=
  Except.error "NameError: name company is not defined"

/-- Embeds _analyze_github_presence (lines 255-278).  findOrg stands for
_find_github_org (website, name) and repoScore for _analyze_github_repos:
both make API calls, so they are parameters; any raised exception is caught
by the try block and degrades the sub-score to 2, as does an unresolved
organization. -/
def analyze_github_presence
    (findOrg : String → String → Except String (Option String))
    (repoScore : String → Except String ℚ)
    (company : CompanyRecord) : ℚ :=
  if company.website = "" ∧ company.name = "" then 0
  else
    match findOrg company.website company.name with
    | .error _ => 2
    | .ok none => 2
    | .ok (some github_org) =>
        match repoScore github_org with
        | .error _ => 2
        | .ok repo_score => min 10 repo_score

/-- The specific, falsifiable technical claims list of
_analyze_marketing_content (lines 382-386). -/
def specific_claims : List String :=
  ["accuracy", "precision", "recall", "f1 score", "training data",
   "model performance", "inference time", "custom model", "proprietary algorithm"]

/-- The vague AI buzzword list of _analyze_marketing_content (lines 388-391). -/
def vague_claims : List String :=
  ["ai-powered", "artificial intelligence", "machine learning magic",
   "smart technology", "intelligent system", "ai revolution"]

/-- Number of specific claims occurring in the combined lower-cased
content (line 393). -/
def marketing_specific_count (combined_content : String) : Nat :=
  (specific_claims.filter (fun claim => strContains combined_content claim)).length

/-- Number of vague claims occurring in the combined lower-cased content
(line 394). -/
def marketing_vague_count (combined_content : String) : Nat :=
  (vague_claims.filter (fun claim => strContains combined_content claim)).length

/-- Embeds _analyze_marketing_content (lines 365-411).  fetch stands for
_get_page_content on the website; when there is no website the content
stays the empty string.  An Except.error stands for an exception inside the
try block, caught at line 408 and degraded to the default 5. -/
def analyze_marketing_content
    (fetch : String → Except String String)
    (company : CompanyRecord) : ℚ :=
  if company.website = "" ∧ company.description = "" then 5
  else
    match (if company.website = "" then Except.ok "" else fetch company.website) with
    | .error _ => 5
    | .ok content =>
        let combined_content := strToLower (company.description ++ " " ++ content)
        let specific_count := marketing_specific_count combined_content
        let vague_count := marketing_vague_count combined_content
        let score : ℚ := 5
        let score := score + min 3 ((specific_count : ℚ) * (1/2))
        let score := score - min 3 ((vague_count : ℚ) * (3/10))
        let score :=
          if (strContains combined_content "chatgpt"
                || strContains combined_content "openai api")
              ∧ specific_count = 0
          then score - 3 else score
        max 1 (min 10 score)

/-- The external collaborators of the composite scorer, bundled: arbitrary
outcomes of every network-bound helper used by the four sub-analyses. -/
structure Env where
  findBlog : String → Except String (List String)
  fetch : String → Except String String
  scorePost : String → ℚ
  jobSearch : String → Except String (List Job)
  findOrg : String → String → Except String (Option String)
  repoScore : String → Except String ℚ

/-- calculate_ai_washing_score composed with the four embedded
sub-analyses, each running against the collaborators in env. -/
def calculate_ai_washing_score_full (env : Env) (company : CompanyRecord) : Int :=
  calculate_ai_washing_score
    (analyze_engineering_blog env.findBlog env.fetch env.scorePost company)
    (analyze_job_postings env.jobSearch company)
    (analyze_github_presence env.findOrg env.repoScore company)
    (analyze_marketing_content env.fetch company)

/-- Embeds _extract_domain (discovery_engine.py lines 226-243): strip
protocol (everything up to and including the first ://), strip path
(everything from the first /), strip a leading www., lower-case. -/
def extract_domain (url : String) : String :=
  if url = "" then ""
  else
    let u1 := if strContains url "://" then afterFirst url "://" else url
    let u2 := if strContains u1 "/" then beforeFirst u1 "/" else u1
    let u3 := if strStartsWith u2 "www." then strDrop u2 4 else u2
    strToLower u3

/-- The unique key used by _deduplicate_companies (lines 118-123): the
extracted domain when it is nonempty (truthy), otherwise the lower-cased
trimmed name. -/
def dedup_key (company : CompanyRecord) : String :=
  let domain := extract_domain company.website
  let company_name := strTrim (strToLower company.name)
  if domain ≠ "" then domain else company_name

/-- The loop of _deduplicate_companies (lines 115-128): walk the list with
a seen-key set, keeping a record exactly when its key is nonempty and
unseen. -/
def dedupGo : List CompanyRecord → List String → List CompanyRecord
  | [], _ => []
  | company :: rest, seen_domains =>
      let unique_key := dedup_key company
      if unique_key ≠ "" ∧ unique_key ∉ seen_domains then
        company :: dedupGo rest (unique_key :: seen_domains)
      else
        dedupGo rest seen_domains

/-- Embeds _deduplicate_companies (lines 110-130). -/
def deduplicate_companies (companies : List CompanyRecord) : List CompanyRecord :=
  dedupGo companies []

/-- Embeds _discover_companies (lines 76-108): three collectors run in
order (Y Combinator, GeekWire, LinkedIn), each inside its own try block;
a collector that raises contributes nothing, a successful one has its
output appended with list.extend. -/
def discover_companies (yc gw li : Except String (List CompanyRecord)) :
    List CompanyRecord :=
  let all_companies : List CompanyRecord := []
  let all_companies := match yc with
    | .ok yc_companies => all_companies ++ yc_companies
    | .error _ => all_companies
  let all_companies := match gw with
    | .ok gw_companies => all_companies ++ gw_companies
    | .error _ => all_companies
  let all_companies := match li with
    | .ok li_companies => all_companies ++ li_companies
    | .error _ => all_companies
  all_companies

/-- Embeds the TargetCriteria dataclass defaults (config/settings.py). -/
structure TargetCriteria where
  target_locations : List String := ["Seattle", "Bellevue", "Redmond", "Kirkland"]
  funding_stages : List String := ["Series A", "Series B", "Early Stage VC"]
  min_employees : Int := 10
  max_employees : Int := 200
  target_industries : List String :=
    ["Healthcare", "Health Tech", "Medical Devices", "E-commerce",
     "Enterprise Software", "SaaS", "Real-time Communications",
     "Video Conferencing", "AI/ML Infrastructure", "Data Analytics"]
  min_ai_washing_score : Int := 6

/-- Embeds _calculate_strategic_fit (lines 175-206).  The ai_washing_score
argument models company.get(ai_washing_score, 0), the value stored on the
record just before this call in _analyze_companies. -/
def calculate_strategic_fit (targets : TargetCriteria) (company : CompanyRecord)
    (ai_washing_score : Int) : Int :=
  let score : Int := 0
  let location := strToLower company.location
  let score :=
    if targets.target_locations.any (fun city => strContains location (strToLower city))
    then score + 2 else score
  let score :=
    if targets.funding_stages.contains company.funding_stage
    then score + 2 else score
  let score :=
    if targets.min_employees ≤ company.employees_count
        ∧ company.employees_count ≤ targets.max_employees
    then score + 2 else score
  let description := strToLower company.description
  let score :=
    if targets.target_industries.any (fun industry => strContains description (strToLower industry))
    then score + 2 else score
  let score :=
    if ai_washing_score ≥ 7 then score + 2
    else if ai_washing_score ≥ 5 then score + 1
    else score
  min score 10

/-- The healthcare keyword list of _assess_healthcare_relevance
(lines 218-222). -/
def healthcare_keywords : List String :=
  ["health", "medical", "healthcare", "clinical", "patient",
   "hospital", "diagnosis", "treatment", "pharma", "biotech",
   "therapeutic", "drug", "medicine", "doctor", "physician"]

/-- Embeds _assess_healthcare_relevance (lines 208-224). -/
def assess_healthcare_relevance (company : CompanyRecord) : Bool :=
  let combined_text := strToLower
    (company.description ++ " " ++ company.name ++ " "
      ++ String.intercalate " " company.keywords)
  healthcare_keywords.any (fun keyword => strContains combined_text keyword)

/-- A company record after the per-record analysis loop: the input record
plus the derived fields written by _analyze_companies. -/
structure AnalyzedRecord where
  base : CompanyRecord
  ai_washing_score : Int
  github_analysis : Option String := none
  strategic_fit_score : Option Int := none
  healthcare_relevance : Option Bool := none
  analysis_error : Option String := none
  deriving DecidableEq

/-- The try block body of _analyze_companies (lines 138-171) for one
record.  aiScore stands for calculate_ai_washing_score and githubData for
analyze_company_github, the two fallible steps; fit scoring and the
relevance classifier are pure.  Any exception is caught at line 166: the
record is kept with ai_washing_score overwritten to 0 and analysis_error
set to the message. -/
def analyze_company_step
    (aiScore : CompanyRecord → Except String Int)
    (githubData : CompanyRecord → Except String String)
    (targets : TargetCriteria) (company : CompanyRecord) : AnalyzedRecord :=
  match aiScore company with
  | .error e => { base := company, ai_washing_score := 0, analysis_error := some e }
  | .ok ai_score =>
      match githubData company with
      | .error e => { base := company, ai_washing_score := 0, analysis_error := some e }
      | .ok github_data =>
          let fit_score := calculate_strategic_fit targets company ai_score
          { base := company
            ai_washing_score := ai_score
            github_analysis := some github_data
            strategic_fit_score := some fit_score
            healthcare_relevance := some (assess_healthcare_relevance company)
            analysis_error := none }

/-- Embeds _analyze_companies (lines 132-173): every record is processed
independently and appended to the output exactly once, whether its
analysis succeeds or raises. -/
def analyze_companies
    (aiScore : CompanyRecord → Except String Int)
    (githubData : CompanyRecord → Except String String)
    (targets : TargetCriteria)
    (companies : List CompanyRecord) : List AnalyzedRecord :=
  companies.map (analyze_company_step aiScore githubData targets)

/-! Specification-side definitions: these follow the wording of the spec
and of the claims, for comparison with the code embeddings above. -/

/-- Output of one collector as the spec describes it: a successful
collector contributes its list, a failing one contributes nothing. -/
def okList (r : Except String (List CompanyRecord)) : List CompanyRecord :=
  match r with
  | .ok l => l
  | .error _ => []

/-- Size of one collector output, counting a failed collector as zero. -/
def okLen (r : Except String (List CompanyRecord)) : Nat :=
  match r with
  | .ok l => l.length
  | .error _ => 0

/-- Identity key exactly as claim C3 words it: the normalized website
domain, falling back to the trimmed lower-cased name only when there is no
website at all. -/
def claimed_identity_key (company : CompanyRecord) : String :=
  if company.website ≠ "" then extract_domain company.website
  else strTrim (strToLower company.name)

/-- Deduplication as the spec words it, for an arbitrary identity key:
drop records whose key is empty, keep the first record of each key, and
remove every later record with the same key, preserving order of first
occurrence. -/
def first_occurrence_dedup (key : CompanyRecord → String) :
    List CompanyRecord → List CompanyRecord
  | [] => []
  | c :: cs =>
      if key c = "" then first_occurrence_dedup key cs
      else c :: first_occurrence_dedup key (cs.filter (fun d => key d ≠ key c))
termination_by l => l.length
decreasing_by
  · simp only [List.length_cons]
    omega
  · simp only [List.length_cons]
    exact Nat.lt_succ_of_le (List.length_filter_le _ _)

/-- Weighted ML-role ratio of a job list, as the spec describes it. -/
def weighted_ml_ratio (job_data : List Job) : ℚ :=
  ((job_data.map (fun j => ml_weight j.title)).sum) / (job_data.length : ℚ)

/-- The fixed threshold table of the job-mix sub-score, as claim C7 words
it. -/
def job_threshold_score (ml_ratio : ℚ) : ℚ :=
  if 3/10 ≤ ml_ratio then 10
  else if 1/5 ≤ ml_ratio then 8
  else if 3/20 ≤ ml_ratio then 6
  else if 1/10 ≤ ml_ratio then 4
  else 2

/-- The combined description-and-website content inspected by the
marketing sub-analysis. -/
def combined_marketing_text (company : CompanyRecord) (content : String) : String :=
  strToLower (company.description ++ " " ++ content)

/-- Marketing bonus for specific falsifiable claims, as claim C9 words it:
at most 3 points. -/
def specific_bonus (combined_content : String) : ℚ :=
  min 3 ((marketing_specific_count combined_content : ℚ) * (1/2))

/-- Marketing malus for vague buzzwords, as claim C9 words it: at most 3
points. -/
def vague_malus (combined_content : String) : ℚ :=
  min 3 ((marketing_vague_count combined_content : ℚ) * (3/10))

/-- Whether the content mentions a third-party generative-AI integration
(the two markers tested at line 402). -/
def wrapper_mention (combined_content : String) : Bool :=
  strContains combined_content "chatgpt" || strContains combined_content "openai api"

/-- The pure-wrapper penalty, as claim C9 words it: 3 exactly when a
third-party generative-AI integration is mentioned while zero specific
claims are present. -/
def wrapper_penalty (combined_content : String) : ℚ :=
  if wrapper_mention combined_content ∧ marketing_specific_count combined_content = 0
  then 3 else 0

/-- Strategic-fit rubric, location criterion (claim C6): 2 points for a
case-insensitive target-location substring match. -/
def location_points (targets : TargetCriteria) (company : CompanyRecord) : Int :=
  if targets.target_locations.any
      (fun city => strContains (strToLower company.location) (strToLower city))
  then 2 else 0

/-- Strategic-fit rubric, funding-stage criterion (claim C6): 2 points for
an exact funding-stage match. -/
def funding_points (targets : TargetCriteria) (company : CompanyRecord) : Int :=
  if targets.funding_stages.contains company.funding_stage then 2 else 0

/-- Strategic-fit rubric, company-size criterion (claim C6): 2 points for
an employee count within the configured inclusive range. -/
def size_points (targets : TargetCriteria) (company : CompanyRecord) : Int :=
  if targets.min_employees ≤ company.employees_count
      ∧ company.employees_count ≤ targets.max_employees
  then 2 else 0

/-- Strategic-fit rubric, industry criterion (claim C6): 2 points for a
target-industry keyword in the description. -/
def industry_points (targets : TargetCriteria) (company : CompanyRecord) : Int :=
  if targets.target_industries.any
      (fun industry => strContains (strToLower company.description) (strToLower industry))
  then 2 else 0

/-- Strategic-fit rubric, technical-depth criterion (claim C6): 2 points
when the AI-washing score is at least 7, 1 point when it lies in [5,7). -/
def ai_points (ai_washing_score : Int) : Int :=
  if 7 ≤ ai_washing_score then 2
  else if 5 ≤ ai_washing_score ∧ ai_washing_score < 7 then 1
  else 0

/-! Concrete records used by witnesses. -/

/-- A record with a name and nothing else. -/
def acme : CompanyRecord := { name := "Acme" }

/-- A record with a name and a website. -/
def acmeWeb : CompanyRecord := { name := "Acme", website := "https://acme.com" }

/-- One machine-learning job posting. -/
def mlJob : Job := { title := "Machine Learning Engineer" }

/-!  Theorems: one per claim, in claim order. -/

/-- C1 (counterexample): at the all-default sub-scores (2, 3, 2, 5) the
code returns 2, while the claimed rounding rule on the weighted sum 2.85
yields 3: the final score is not the rounded weighted sum. -/
theorem ai_washing_defaults_score_two_not_three :
    calculate_ai_washing_score 2 3 2 5 = 2
    ∧ max 1 (min 10 (round ((2 : ℚ) * (3/10) + 3 * (1/4) + 2 * (1/4) + 5 * (1/5)))) = 3 := by
  constructor
  · norm_num [calculate_ai_washing_score, pyInt]
  · norm_num [round_eq]

/-- C1 (amended): the final AI-washing score is the weighted sum
0.30·blog + 0.25·jobs + 0.25·github + 0.20·marketing truncated by Python
int() (the floor, for the nonnegative sub-scores produced by the
sub-analyses), then clamped to [1,10]; the all-default sub-scores
(2, 3, 2, 5) give the weighted sum 2.85, which truncates to 2. -/
theorem ai_washing_score_is_truncated_weighted_sum :
    calculate_ai_washing_score 2 3 2 5 = 2
    ∧ ∀ b j g m : ℚ, 0 ≤ b → 0 ≤ j → 0 ≤ g → 0 ≤ m →
        calculate_ai_washing_score b j g m
          = max 1 (min 10 ⌊(3/10) * b + (1/4) * j + (1/4) * g + (1/5) * m⌋) := by
  constructor
  · norm_num [calculate_ai_washing_score, pyInt]
  · intro b j g m hb hj hg hm
    show max 1 (min 10 (pyInt (0 + b * (3/10) + j * (1/4) + g * (1/4) + m * (1/5)))) = _
    have harg : 0 + b * (3/10) + j * (1/4) + g * (1/4) + m * (1/5)
        = (3/10) * b + (1/4) * j + (1/4) * g + (1/5) * m := by ring
    have hpos : (0 : ℚ) ≤ (3/10) * b + (1/4) * j + (1/4) * g + (1/5) * m := by
      linarith
    rw [harg, pyInt, if_pos hpos]

/-- Witness for the amended C1 theorem at the sub-scores (2, 3, 2, 5). -/
theorem ai_washing_score_is_truncated_weighted_sum_witness :
    calculate_ai_washing_score 2 3 2 5
      = max 1 (min 10 ⌊(3/10) * (2 : ℚ) + (1/4) * 3 + (1/4) * 2 + (1/5) * 5⌋) :=
  ai_washing_score_is_truncated_weighted_sum.2 2 3 2 5
    (by norm_num) (by norm_num) (by norm_num) (by norm_num)

/-- C2: for every company record and every combination of collaborator
outcomes (successes, empty data, or raised exceptions in any network-bound
helper), the composite scorer returns an integer in [1,10]; each failure
path is absorbed into a default sub-score, never propagated. -/
theorem ai_washing_score_in_range (env : Env) (company : CompanyRecord) :
    1 ≤ calculate_ai_washing_score_full env company
    ∧ calculate_ai_washing_score_full env company ≤ 10 := by
  unfold calculate_ai_washing_score_full calculate_ai_washing_score
  exact ⟨le_max_left 1 _, max_le (by norm_num) (min_le_left _ _)⟩

/-- C10: with the job-search helper as actually written (it raises
NameError on every call because the variable company is unbound in its
scope), the job-posting sub-analysis returns the default 3 for every
record with a non-empty name; the threshold mapping is never reached. -/
theorem job_subscore_always_default (company : CompanyRecord)
    (h : company.name ≠ "") :
    analyze_job_postings search_job_postings company = 3 := by
  unfold analyze_job_postings search_job_postings
  rw [if_neg h]

/-- Witness for the C10 theorem at a record named Acme. -/
theorem job_subscore_always_default_witness :
    analyze_job_postings search_job_postings acme = 3 :=
  job_subscore_always_default acme (by decide)

/-- C7: for a named company whose job search succeeds, the job-mix
sub-score is determined from the weighted ML-role ratio by the fixed
thresholds (ratio ≥ 0.30 gives 10, ≥ 0.20 gives 8, ≥ 0.15 gives 6,
≥ 0.10 gives 4, otherwise 2), and with no job data the sub-score is the
fixed default 3. -/
theorem job_subscore_threshold_mapping
    (jobSearch : String → Except String (List Job)) (company : CompanyRecord)
    (job_data : List Job)
    (hname : company.name ≠ "")
    (hsearch : jobSearch company.name = .ok job_data) :
    analyze_job_postings jobSearch company
      = if job_data.isEmpty then 3
        else job_threshold_score (weighted_ml_ratio job_data) := by
  unfold analyze_job_postings
  rw [if_neg hname, hsearch]
  cases job_data with
  | nil => rfl
  | cons j js =>
      simp only [List.isEmpty_cons, Bool.false_eq_true, if_false]
      rw [if_pos (show 0 < (j :: js).length from Nat.succ_pos js.length)]
      rfl

/-- Witness for the C7 theorem: one Machine Learning Engineer posting out
of one gives ratio 3 and sub-score 10. -/
theorem job_subscore_threshold_mapping_witness :
    analyze_job_postings (fun _ => Except.ok [mlJob]) acme
      = if ([mlJob] : List Job).isEmpty then 3
        else job_threshold_score (weighted_ml_ratio [mlJob]) :=
  job_subscore_threshold_mapping (fun _ => Except.ok [mlJob]) acme [mlJob]
    (by decide) rfl

/-- C8 (counterexample): a record with no website at all gets blog-depth
sub-score 0, not the claimed fixed value 2. -/
theorem blog_subscore_no_website_is_zero :
    analyze_engineering_blog (fun _ => Except.ok []) (fun _ => Except.ok "")
        (fun _ => 0) acme = 0
    ∧ (0 : ℚ) ≠ 2 := by
  constructor
  · rfl
  · norm_num

/-- C8 (amended): for a record with a website, every way of finding no
engineering blog (the finder raises, finds no urls, or none of the found
urls yields nonempty content) gives the fixed sub-score 2; a record with
no website gets sub-score 0 instead. -/
theorem blog_subscore_absence_defaults
    (findBlog : String → Except String (List String))
    (fetch : String → Except String String)
    (scorePost : String → ℚ)
    (company : CompanyRecord) :
    (company.website = "" →
      analyze_engineering_blog findBlog fetch scorePost company = 0)
    ∧ (company.website ≠ "" → ∀ e, findBlog company.website = .error e →
        analyze_engineering_blog findBlog fetch scorePost company = 2)
    ∧ (company.website ≠ "" → findBlog company.website = .ok [] →
        analyze_engineering_blog findBlog fetch scorePost company = 2)
    ∧ (company.website ≠ "" → ∀ blog_urls, findBlog company.website = .ok blog_urls →
        (∀ u ∈ blog_urls.take 3, fetch u = .ok "" ∨ ∃ e, fetch u = .error e) →
        analyze_engineering_blog findBlog fetch scorePost company = 2) := by
  refine ⟨?_, ?_, ?_, ?_⟩
  · intro hw
    unfold analyze_engineering_blog
    rw [if_pos hw]
  · intro hw e he
    unfold analyze_engineering_blog
    rw [if_neg hw, he]
  · intro hw hb
    unfold analyze_engineering_blog
    rw [if_neg hw, hb]
    rfl
  · intro hw blog_urls hb hall
    unfold analyze_engineering_blog
    rw [if_neg hw, hb]
    cases hempty : blog_urls.isEmpty with
    | true => simp [hempty]
    | false =>
        have hnil : (blog_urls.take 3).filterMap (fun blog_url =>
            match fetch blog_url with
            | .error _ => none
            | .ok blog_content =>
                if blog_content = "" then none
                else some (scorePost blog_content)) = [] := by
          refine List.filterMap_eq_nil_iff.mpr (fun u hu => ?_)
          rcases hall u hu with h1 | ⟨e, h2⟩
          · rw [h1]
            simp
          · rw [h2]
        simp [hempty, hnil]

/-- Witness for the amended C8 theorem: a record with a website whose blog
finder returns no urls scores 2. -/
theorem blog_subscore_absence_defaults_witness :
    analyze_engineering_blog (fun _ => Except.ok []) (fun _ => Except.ok "")
      (fun _ => 0) acmeWeb = 2 :=
  (blog_subscore_absence_defaults (fun _ => Except.ok []) (fun _ => Except.ok "")
      (fun _ => 0) acmeWeb).2.2.1 (by decide) rfl

/-- C9: whenever the marketing sub-analysis reaches its scoring step (some
content exists and the fetch does not raise), the sub-score is the base 5
plus a bonus of at most 3 for specific falsifiable technical claims, minus
a malus of at most 3 for vague AI buzzwords, minus a penalty that equals 3
exactly when the combined description-and-website content mentions a
third-party generative-AI integration while containing zero specific
claims, the total clamped into [1,10]. -/
theorem marketing_subscore_formula
    (fetch : String → Except String String) (company : CompanyRecord)
    (content : String)
    (hsome : ¬ (company.website = "" ∧ company.description = ""))
    (hfetch : company.website ≠ "" → fetch company.website = .ok content)
    (hnone : company.website = "" → content = "") :
    analyze_marketing_content fetch company
      = max 1 (min 10
          (5 + specific_bonus (combined_marketing_text company content)
             - vague_malus (combined_marketing_text company content)
             - wrapper_penalty (combined_marketing_text company content)))
    ∧ 0 ≤ specific_bonus (combined_marketing_text company content)
    ∧ specific_bonus (combined_marketing_text company content) ≤ 3
    ∧ 0 ≤ vague_malus (combined_marketing_text company content)
    ∧ vague_malus (combined_marketing_text company content) ≤ 3
    ∧ (wrapper_penalty (combined_marketing_text company content) = 3
        ↔ wrapper_mention (combined_marketing_text company content)
          ∧ marketing_specific_count (combined_marketing_text company content) = 0) := by
  refine ⟨?_, ?_, ?_, ?_, ?_, ?_⟩
  · have main : ∀ c : String,
        strToLower (company.description ++ " " ++ c)
          = combined_marketing_text company c := fun _ => rfl
    by_cases hw : company.website = ""
    · have hc := hnone hw
      subst hc
      unfold analyze_marketing_content
      rw [if_neg hsome, if_pos hw]
      dsimp only
      unfold specific_bonus vague_malus wrapper_penalty wrapper_mention
        combined_marketing_text
      split_ifs with h <;> ring_nf
    · have hf := hfetch hw
      unfold analyze_marketing_content
      rw [if_neg hsome, if_neg hw, hf]
      dsimp only
      unfold specific_bonus vague_malus wrapper_penalty wrapper_mention
        combined_marketing_text
      split_ifs with h <;> ring_nf
  · exact le_min (by norm_num) (by positivity)
  · exact min_le_left _ _
  · exact le_min (by norm_num) (by positivity)
  · exact min_le_left _ _
  · unfold wrapper_penalty
    split_ifs with h
    · exact ⟨fun _ => h, fun _ => rfl⟩
    · constructor
      · intro h3
        norm_num at h3
      · intro hh
        exact absurd hh h

/-- Witness for the C9 theorem: description only, no website, with a
generative-AI mention and no specific claims. -/
theorem marketing_subscore_formula_witness :
    analyze_marketing_content (fun _ => Except.ok "")
        { description := "uses chatgpt" }
      = max 1 (min 10
          (5 + specific_bonus (combined_marketing_text { description := "uses chatgpt" } "")
             - vague_malus (combined_marketing_text { description := "uses chatgpt" } "")
             - wrapper_penalty (combined_marketing_text { description := "uses chatgpt" } ""))) :=
  (marketing_subscore_formula (fun _ => Except.ok "") { description := "uses chatgpt" } ""
    (by decide) (fun h => absurd rfl h) (fun _ => rfl)).1

/-- C6: the strategic fit score is the additive rubric sum (2 points per
met criterion, with the AI-washing criterion contributing 2 for a score of
at least 7 and 1 for a score in [5,7)) clamped to [0,10]; when the
AI-washing score is at least 7 and every other criterion is unmet the
result is exactly 2. -/
theorem strategic_fit_additive_rubric (targets : TargetCriteria)
    (company : CompanyRecord) (ai_washing_score : Int) :
    calculate_strategic_fit targets company ai_washing_score
      = max 0 (min 10
          (location_points targets company + funding_points targets company
            + size_points targets company + industry_points targets company
            + ai_points ai_washing_score))
    ∧ 0 ≤ calculate_strategic_fit targets company ai_washing_score
    ∧ calculate_strategic_fit targets company ai_washing_score ≤ 10
    ∧ (7 ≤ ai_washing_score →
        location_points targets company = 0 → funding_points targets company = 0 →
        size_points targets company = 0 → industry_points targets company = 0 →
        calculate_strategic_fit targets company ai_washing_score = 2) := by
  simp only [calculate_strategic_fit, location_points, funding_points, size_points,
    industry_points, ai_points]
  split_ifs <;> omega

/-- Witness for the C6 theorem: a record meeting no criterion with
AI-washing score 8 scores exactly 2. -/
theorem strategic_fit_additive_rubric_witness :
    calculate_strategic_fit {} acme 8 = 2 :=
  (strategic_fit_additive_rubric {} acme 8).2.2.2 (by norm_num)
    (by decide) (by decide) (by decide) (by decide)

/-- C4: the analysis loop emits exactly one output record per input record
in order (so a record whose analysis raises is still present, exactly once
when it occurred once in the input); a record whose analysis raised
carries ai_washing_score 0 and its analysis_error message, and every other
record is still analyzed normally. -/
theorem analyze_companies_partial_failure
    (aiScore : CompanyRecord → Except String Int)
    (githubData : CompanyRecord → Except String String)
    (targets : TargetCriteria) (companies : List CompanyRecord) :
    ((analyze_companies aiScore githubData targets companies).map AnalyzedRecord.base
        = companies)
    ∧ (∀ company : CompanyRecord,
        (analyze_companies aiScore githubData targets companies).countP
            (fun r => r.base == company)
          = companies.count company)
    ∧ (∀ r ∈ analyze_companies aiScore githubData targets companies,
        (∀ e, aiScore r.base = .error e →
          r.ai_washing_score = 0 ∧ r.analysis_error = some e)
        ∧ (∀ s e, aiScore r.base = .ok s → githubData r.base = .error e →
          r.ai_washing_score = 0 ∧ r.analysis_error = some e)
        ∧ (∀ s g, aiScore r.base = .ok s → githubData r.base = .ok g →
          r.ai_washing_score = s ∧ r.analysis_error = none
            ∧ r.strategic_fit_score = some (calculate_strategic_fit targets r.base s))) := by
  have hbase : ∀ c : CompanyRecord,
      (analyze_company_step aiScore githubData targets c).base = c := by
    intro c
    unfold analyze_company_step
    cases aiScore c with
    | error e => rfl
    | ok s =>
        cases githubData c with
        | error e => rfl
        | ok g => rfl
  refine ⟨?_, ?_, ?_⟩
  · unfold analyze_companies
    rw [List.map_map]
    have : (AnalyzedRecord.base ∘ analyze_company_step aiScore githubData targets)
        = id := funext fun c => hbase c
    rw [this, List.map_id]
  · intro company
    unfold analyze_companies
    rw [List.countP_map]
    unfold List.count
    refine List.countP_congr (fun c _ => ?_)
    simp [Function.comp, hbase c]
  · intro r hr
    unfold analyze_companies at hr
    rcases List.mem_map.mp hr with ⟨c, _, hc⟩
    subst hc
    rw [hbase c]
    unfold analyze_company_step
    refine ⟨?_, ?_, ?_⟩
    · intro e he
      rw [he]
      exact ⟨rfl, rfl⟩
    · intro s e hs he
      rw [hs, he]
      exact ⟨rfl, rfl⟩
    · intro s g hs hg
      rw [hs, hg]
      exact ⟨rfl, rfl, rfl⟩

/-- Witness for the C4 theorem: two records, the first failing analysis
with message boom, the second succeeding; the failing record is kept (the
output bases are exactly the inputs) with score 0 and the error message. -/
theorem analyze_companies_partial_failure_witness :
    ((analyze_companies
        (fun c => if c.name = "Acme" then Except.error "boom" else Except.ok 7)
        (fun _ => Except.ok "gh") {} [acme, { name := "Bcme" }]).map
          AnalyzedRecord.base = [acme, { name := "Bcme" }])
    ∧ ((analyze_companies
        (fun c => if c.name = "Acme" then Except.error "boom" else Except.ok 7)
        (fun _ => Except.ok "gh") {} [acme, { name := "Bcme" }]).headD
          { base := acme, ai_washing_score := 5 }).ai_washing_score = 0
    ∧ ((analyze_companies
        (fun c => if c.name = "Acme" then Except.error "boom" else Except.ok 7)
        (fun _ => Except.ok "gh") {} [acme, { name := "Bcme" }]).headD
          { base := acme, ai_washing_score := 5 }).analysis_error = some "boom" := by
  have h := analyze_companies_partial_failure
      (fun c => if c.name = "Acme" then Except.error "boom" else Except.ok 7)
      (fun _ => Except.ok "gh") {} [acme, { name := "Bcme" }]
  have hr := (h.2.2 ((analyze_companies
      (fun c => if c.name = "Acme" then Except.error "boom" else Except.ok 7)
      (fun _ => Except.ok "gh") {} [acme, { name := "Bcme" }]).headD
        { base := acme, ai_washing_score := 5 }) (by decide)).1 "boom" rfl
  exact ⟨h.1, hr.1, hr.2⟩

/-- C5: however the three collectors fail or succeed, the aggregate is the
in-order concatenation of the successful collector outputs: its size is
the sum of the successful output sizes (so never below the sum of the
outputs of the collectors that did not fail), and each successful output
embeds in emission order. -/
theorem discover_companies_failure_isolation
    (yc gw li : Except String (List CompanyRecord)) :
    discover_companies yc gw li = okList yc ++ okList gw ++ okList li
    ∧ (discover_companies yc gw li).length = okLen yc + okLen gw + okLen li
    ∧ (∀ l, yc = .ok l → l.Sublist (discover_companies yc gw li))
    ∧ (∀ l, gw = .ok l → l.Sublist (discover_companies yc gw li))
    ∧ (∀ l, li = .ok l → l.Sublist (discover_companies yc gw li)) := by
  have hconcat : discover_companies yc gw li = okList yc ++ okList gw ++ okList li := by
    unfold discover_companies okList
    cases yc <;> cases gw <;> cases li <;> simp
  refine ⟨hconcat, ?_, ?_, ?_, ?_⟩
  · rw [hconcat]
    simp only [List.length_append]
    cases yc <;> cases gw <;> cases li <;> rfl
  · intro l hl
    rw [hconcat, hl]
    exact ((List.sublist_append_left l (okList gw)).trans
      (List.sublist_append_left _ (okList li)))
  · intro l hl
    rw [hconcat, hl]
    exact ((List.sublist_append_right (okList yc) l).trans
      (List.sublist_append_left _ (okList li)))
  · intro l hl
    rw [hconcat, hl]
    exact List.sublist_append_right _ l

/-- Witness for the C5 theorem: the middle collector fails, the outer two
succeed; both successful outputs survive in order. -/
theorem discover_companies_failure_isolation_witness :
    (discover_companies (Except.ok [acme]) (Except.error "down")
        (Except.ok [acmeWeb])).length
      = okLen (Except.ok [acme]) + okLen (Except.error "down")
        + okLen (Except.ok ([acmeWeb] : List CompanyRecord))
    ∧ [acme].Sublist (discover_companies (Except.ok [acme]) (Except.error "down")
        (Except.ok [acmeWeb])) := by
  have h := discover_companies_failure_isolation (Except.ok [acme])
    (Except.error "down") (Except.ok [acmeWeb])
  exact ⟨h.2.1, h.2.2.1 [acme] rfl⟩

/-! Helper lemmas about first-occurrence deduplication. -/

theorem first_occurrence_dedup_nil (key : CompanyRecord → String) :
    first_occurrence_dedup key [] = [] := by
  simp [first_occurrence_dedup]

theorem first_occurrence_dedup_cons (key : CompanyRecord → String)
    (c : CompanyRecord) (cs : List CompanyRecord) :
    first_occurrence_dedup key (c :: cs)
      = if key c = "" then first_occurrence_dedup key cs
        else c :: first_occurrence_dedup key (cs.filter (fun d => key d ≠ key c)) := by
  rw [first_occurrence_dedup]

theorem first_occurrence_dedup_sublist (key : CompanyRecord → String)
    (cs : List CompanyRecord) : (first_occurrence_dedup key cs).Sublist cs := by
  induction cs using first_occurrence_dedup.induct key with
  | case1 => simp [first_occurrence_dedup_nil]
  | case2 c cs hk ih =>
      rw [first_occurrence_dedup_cons, if_pos hk]
      exact ih.cons c
  | case3 c cs hk ih =>
      rw [first_occurrence_dedup_cons, if_neg hk]
      exact List.Sublist.cons₂ c (ih.trans (List.filter_sublist cs))

theorem first_occurrence_dedup_keys_ne (key : CompanyRecord → String)
    (cs : List CompanyRecord) :
    ∀ c ∈ first_occurrence_dedup key cs, key c ≠ "" := by
  induction cs using first_occurrence_dedup.induct key with
  | case1 => simp [first_occurrence_dedup_nil]
  | case2 c cs hk ih =>
      rw [first_occurrence_dedup_cons, if_pos hk]
      exact ih
  | case3 c cs hk ih =>
      rw [first_occurrence_dedup_cons, if_neg hk]
      intro x hx
      rcases List.mem_cons.mp hx with h | h
      · rw [h]
        exact hk
      · exact ih x h

theorem first_occurrence_dedup_keys_nodup (key : CompanyRecord → String)
    (cs : List CompanyRecord) :
    ((first_occurrence_dedup key cs).map key).Nodup := by
  induction cs using first_occurrence_dedup.induct key with
  | case1 => simp [first_occurrence_dedup_nil]
  | case2 c cs hk ih =>
      rw [first_occurrence_dedup_cons, if_pos hk]
      exact ih
  | case3 c cs hk ih =>
      rw [first_occurrence_dedup_cons, if_neg hk]
      rw [List.map_cons, List.nodup_cons]
      refine ⟨?_, ih⟩
      intro hmem
      rcases List.mem_map.mp hmem with ⟨x, hx, hkeq⟩
      have hx2 := (first_occurrence_dedup_sublist key _).subset hx
      have := List.of_mem_filter hx2
      rw [decide_eq_true_eq] at this
      exact this hkeq

theorem dedupGo_eq_first_occurrence (cs : List CompanyRecord) :
    ∀ seen : List String, "" ∉ seen →
      dedupGo cs seen
        = first_occurrence_dedup dedup_key
            (cs.filter (fun c => decide (dedup_key c ∉ seen))) := by
  induction cs with
  | nil =>
      intro seen _
      simp [dedupGo, first_occurrence_dedup_nil]
  | cons c cs ih =>
      intro seen hseen
      simp only [dedupGo]
      by_cases hk : dedup_key c = ""
      · rw [if_neg (fun h => h.1 hk)]
        rw [List.filter_cons, if_pos (by rw [hk]; exact decide_eq_true hseen)]
        rw [first_occurrence_dedup_cons, if_pos hk]
        exact ih seen hseen
      · by_cases hmem : dedup_key c ∈ seen
        · rw [if_neg (fun h => h.2 hmem)]
          rw [List.filter_cons, if_neg (by simp [hmem])]
          exact ih seen hseen
        · rw [if_pos ⟨hk, hmem⟩]
          rw [List.filter_cons, if_pos (decide_eq_true hmem)]
          rw [first_occurrence_dedup_cons, if_neg hk]
          have hseen2 : ("" : String) ∉ dedup_key c :: seen := by
            intro hmm
            rcases List.mem_cons.mp hmm with h | h
            · exact hk h.symm
            · exact hseen h
          rw [ih (dedup_key c :: seen) hseen2]
          rw [List.filter_filter]
          have hfun : (fun a : CompanyRecord => decide (dedup_key a ∉ dedup_key c :: seen))
              = (fun a => decide (dedup_key a ≠ dedup_key c)
                  && decide (dedup_key a ∉ seen)) := by
            funext d
            by_cases h1 : dedup_key d = dedup_key c <;>
              by_cases h2 : dedup_key d ∈ seen <;>
                simp [h1, h2, List.mem_cons]
          rw [hfun]

theorem dedup_eq_first_occurrence (companies : List CompanyRecord) :
    deduplicate_companies companies = first_occurrence_dedup dedup_key companies := by
  unfold deduplicate_companies
  rw [dedupGo_eq_first_occurrence companies [] (List.not_mem_nil "")]
  congr 1
  exact List.filter_eq_self.mpr (fun c _ => by simp)

/-- C3 (counterexample): a record with the degenerate website / has an
empty website-derived identity key, so under the claimed key derivation
(name fallback only when there is no website) it would be dropped; the
code instead falls back to the name whenever the extracted domain is
empty, and keeps the record. -/
theorem dedup_claimed_key_counterexample :
    deduplicate_companies [{ name := "Acme", website := "/" }]
      = [{ name := "Acme", website := "/" }]
    ∧ first_occurrence_dedup claimed_identity_key
        [{ name := "Acme", website := "/" }] = [] := by
  constructor
  · rfl
  · rw [first_occurrence_dedup_cons, if_pos (show claimed_identity_key
        { name := "Acme", website := "/" } = "" from rfl)]
    exact first_occurrence_dedup_nil _

/-- C3 (amended): deduplication keeps exactly the first-seen record of
each identity key, unchanged and in order of first occurrence, and drops
records with an empty identity key — where the identity key is the
normalized website domain (protocol and path stripped, leading www.
removed, lower-cased) when that normalized domain is nonempty, and the
trimmed lower-cased name otherwise (in particular when there is no
website). -/
theorem dedup_first_occurrence_semantics (companies : List CompanyRecord) :
    deduplicate_companies companies
      = first_occurrence_dedup dedup_key companies
    ∧ (deduplicate_companies companies).Sublist companies
    ∧ ((deduplicate_companies companies).map dedup_key).Nodup
    ∧ ∀ c ∈ deduplicate_companies companies, dedup_key c ≠ "" := by
  refine ⟨dedup_eq_first_occurrence companies, ?_, ?_, ?_⟩
  · rw [dedup_eq_first_occurrence companies]
    exact first_occurrence_dedup_sublist dedup_key companies
  · rw [dedup_eq_first_occurrence companies]
    exact first_occurrence_dedup_keys_nodup dedup_key companies
  · rw [dedup_eq_first_occurrence companies]
    exact first_occurrence_dedup_keys_ne dedup_key companies

/-- Witness for the amended C3 theorem: the surviving record of a
singleton input has a nonempty identity key. -/
theorem dedup_first_occurrence_semantics_witness :
    dedup_key acmeWeb ≠ "" :=
  (dedup_first_occurrence_semantics [acmeWeb]).2.2.2 acmeWeb (by decide)

end StartupIntel
